import Mathlib

/-!
Verification development for the quota/metering core of CLIProxyAPIPlus.

The Go source under `internal/quota` and `internal/config` is embedded
shallowly: Go maps become association lists over `String` keys, `int64`
becomes `Int`, `float64` becomes `Rat`, and `time.Time` instants become
`Int` seconds (a calendar day `d` spans `[d*86400, (d+1)*86400)`).
Mutating methods of the quota `Manager` become functions returning a new
`Manager`; read-only methods return values without touching the state.
-/

namespace CLIProxy

/-! ### Association lists modelling Go maps -/

/-- Lookup in an association list, modelling Go `m[key]` (comma-ok form). -/
def lookupA {α : Type} : List (String × α) → String → Option α
  | [], _ => none
  | (k, v) :: rest, key => if k = key then some v else lookupA rest key

/-- Remove a key, modelling Go `delete(m, key)`. -/
def eraseA {α : Type} : List (String × α) → String → List (String × α)
  | [], _ => []
  | (k, v) :: rest, key =>
    if k = key then eraseA rest key else (k, v) :: eraseA rest key

/-- Insert or overwrite a key, modelling Go `m[key] = v`. -/
def insertA {α : Type} (l : List (String × α)) (key : String) (v : α) : List (String × α) :=
  (key, v) :: eraseA l key

theorem lookupA_eraseA_self {α : Type} (l : List (String × α)) (key : String) :
    lookupA (eraseA l key) key = none := by
  induction l with
  | nil => rfl
  | cons hd tl ih =>
    obtain ⟨k, v⟩ := hd
    by_cases h : k = key
    · simpa [eraseA, h] using ih
    · simpa [eraseA, lookupA, h] using ih

theorem lookupA_eraseA_ne {α : Type} (l : List (String × α)) (key key' : String)
    (h : key' ≠ key) : lookupA (eraseA l key) key' = lookupA l key' := by
  induction l with
  | nil => rfl
  | cons hd tl ih =>
    obtain ⟨k, v⟩ := hd
    by_cases hk : k = key
    · simpa [eraseA, hk, lookupA, Ne.symm h] using ih
    · by_cases hky : k = key'
      · simp [eraseA, hk, lookupA, hky, h]
      · simpa [eraseA, hk, lookupA, hky] using ih

theorem lookupA_insertA_self {α : Type} (l : List (String × α)) (key : String) (v : α) :
    lookupA (insertA l key v) key = some v := by
  simp [insertA, lookupA]

theorem lookupA_insertA_ne {α : Type} (l : List (String × α)) (key key' : String) (v : α)
    (h : key' ≠ key) : lookupA (insertA l key v) key' = lookupA l key' := by
  simp only [insertA, lookupA]
  rw [if_neg (fun he => h he.symm)]
  exact lookupA_eraseA_ne l key key' h

theorem lookupA_mem {α : Type} {l : List (String × α)} {key : String} {v : α}
    (h : lookupA l key = some v) : (key, v) ∈ l := by
  induction l with
  | nil => simp [lookupA] at h
  | cons hd tl ih =>
    obtain ⟨k2, v2⟩ := hd
    by_cases hk : k2 = key
    · simp only [lookupA, hk, if_pos rfl] at h
      injection h with h2
      subst hk
      subst h2
      exact List.mem_cons_self _ _
    · simp only [lookupA] at h
      rw [if_neg hk] at h
      exact List.mem_cons_of_mem _ (ih h)

/-! ### Policy data model, from `internal/config/api_key_config.go` -/

/-- Parse outcome of the `ExpiresAt` string field of `APIKeyPolicy`.
In Go the field is a string: empty means no expiration; otherwise
`time.Parse` first tries RFC3339 (a full instant), then the date-only
layout `2006-01-02`; any other string parses to the zero time. The four
constructors model those four outcomes of `ParsedExpiresAt`. -/
inductive ExpiresAtField : Type
  | absent : ExpiresAtField
  | rfc3339 (t : Int) : ExpiresAtField
  | dateOnly (day : Int) : ExpiresAtField
  | invalid : ExpiresAtField
deriving DecidableEq, Repr

/-- `APIKeyPolicy` from `internal/config/api_key_config.go`. -/
structure APIKeyPolicy : Type where
  Name : String
  AllowedModels : List String
  MaxTokens : Int
  MaxCostUSD : Rat
  ExpiresAt : ExpiresAtField
deriving DecidableEq, Repr

/-- `ParsedExpiresAt`: RFC3339 instants parse as themselves; a date-only
value parses to midnight of that day and is then advanced by
`24*time.Hour - time.Second`, i.e. to second 86399 of the day; an empty
or unparseable string yields the zero time, modelled as `none`. -/
def APIKeyPolicy.ParsedExpiresAt (p : APIKeyPolicy) : Option Int :=
  match p.ExpiresAt with
  | .absent => none
  | .rfc3339 t => some t
  | .dateOnly d => some (d * 86400 + (86400 - 1))
  | .invalid => none

/-- `HasModelRestriction`: true when `AllowedModels` is non-empty. -/
def APIKeyPolicy.HasModelRestriction (p : APIKeyPolicy) : Bool :=
  !p.AllowedModels.isEmpty

/-- `HasTokenLimit`: true when `MaxTokens > 0`. -/
def APIKeyPolicy.HasTokenLimit (p : APIKeyPolicy) : Bool :=
  decide (p.MaxTokens > 0)

/-- `HasCostLimit`: true when `MaxCostUSD > 0`. -/
def APIKeyPolicy.HasCostLimit (p : APIKeyPolicy) : Bool :=
  decide (p.MaxCostUSD > 0)

/-- `HasExpiration`: true when the `ExpiresAt` string is non-empty. -/
def APIKeyPolicy.HasExpiration (p : APIKeyPolicy) : Bool :=
  match p.ExpiresAt with
  | .absent => false
  | _ => true

/-- `IsExpired`: no expiration string, or a string parsing to the zero
time, is never expired; otherwise the key is expired when the current
instant is strictly after the parsed expiry. -/
def APIKeyPolicy.IsExpired (p : APIKeyPolicy) (now : Int) : Bool :=
  if !p.HasExpiration then false
  else
    match p.ParsedExpiresAt with
    | none => false
    | some t => decide (now > t)

/-- `IsModelAllowed`: no restriction allows everything; otherwise the
model must match one list entry exactly. -/
def APIKeyPolicy.IsModelAllowed (p : APIKeyPolicy) (model : String) : Bool :=
  if !p.HasModelRestriction then true
  else p.AllowedModels.contains model

/-! ### Pricing catalog, from the quota package pricing file -/

/-- `ModelPricing`: USD per million tokens for input, output and cached
input tokens. -/
structure ModelPricing : Type where
  InputPricePerMillion : Rat
  OutputPricePerMillion : Rat
  CachedInputPricePerMillion : Rat
deriving DecidableEq, Repr

/-- `GetPricing` of the pricing manager: map lookup, `none` if unknown. -/
def GetPricing (pricing : List (String × ModelPricing)) (model : String) :
    Option ModelPricing :=
  lookupA pricing model

/-- `CalculateCost` of the pricing manager: unknown models cost 0;
otherwise each token class is priced per million, with the cached price
falling back to the input price when it is zero. -/
def CalculateCost (pricing : List (String × ModelPricing)) (model : String)
    (inputTokens outputTokens cachedTokens : Int) : Rat :=
  match GetPricing pricing model with
  | none => 0
  | some p =>
    let inputCost := (inputTokens : Rat) * p.InputPricePerMillion / 1000000
    let cachedPrice :=
      if p.CachedInputPricePerMillion = 0 then p.InputPricePerMillion
      else p.CachedInputPricePerMillion
    let cachedCost := (cachedTokens : Rat) * cachedPrice / 1000000
    let outputCost := (outputTokens : Rat) * p.OutputPricePerMillion / 1000000
    inputCost + cachedCost + outputCost

/-! ### Usage ledger rows, quota errors and check results -/

/-- `QuotaUsage`: cumulative ledger row for one API key. -/
structure QuotaUsage : Type where
  APIKey : String
  TotalTokens : Int
  TotalCostUSD : Rat
  TotalRequests : Int
  LastUsedAt : Int
  CreatedAt : Int
deriving DecidableEq, Repr

/-- Kinds of quota violation (`QuotaErrorType` constants). -/
inductive QuotaErrorType : Type
  | expired : QuotaErrorType
  | modelNotAllowed : QuotaErrorType
  | tokenLimitExceeded : QuotaErrorType
  | costLimitExceeded : QuotaErrorType
deriving DecidableEq, Repr

/-- `QuotaError` with the payload each `New*Error` constructor carries
in its `Details` map. -/
inductive QuotaError : Type
  | expired (expiresAt : Option Int) : QuotaError
  | modelNotAllowed (model : String) (allowedModels : List String) : QuotaError
  | tokenLimitExceeded (used limit : Int) : QuotaError
  | costLimitExceeded (used limit : Rat) : QuotaError
deriving DecidableEq, Repr

/-- The `Type` field of a `QuotaError`. -/
def QuotaError.errType : QuotaError → QuotaErrorType
  | .expired _ => .expired
  | .modelNotAllowed _ _ => .modelNotAllowed
  | .tokenLimitExceeded _ _ => .tokenLimitExceeded
  | .costLimitExceeded _ _ => .costLimitExceeded

/-- `CheckResult` of a quota check. -/
structure CheckResult : Type where
  Allowed : Bool
  Error : Option QuotaError
  Usage : Option QuotaUsage
  Policy : Option APIKeyPolicy
  RemainingTokens : Option Int
  RemainingCostUSD : Option Rat
deriving DecidableEq, Repr

/-- The error kind of a check result, when denied. -/
def CheckResult.errKind (r : CheckResult) : Option QuotaErrorType :=
  r.Error.map QuotaError.errType

/-- `NewAllowedResult`: allowed, carrying the consulted policy and
ledger row; the remaining-margin fields are filled only when both a
policy and a ledger row are present and the corresponding limit is set. -/
def NewAllowedResult (policy : Option APIKeyPolicy) (usage : Option QuotaUsage) :
    CheckResult :=
  { Allowed := true
    Error := none
    Usage := usage
    Policy := policy
    RemainingTokens :=
      match policy, usage with
      | some p, some u =>
        if p.HasTokenLimit then some (p.MaxTokens - u.TotalTokens) else none
      | _, _ => none
    RemainingCostUSD :=
      match policy, usage with
      | some p, some u =>
        if p.HasCostLimit then some (p.MaxCostUSD - u.TotalCostUSD) else none
      | _, _ => none }

/-- `NewDeniedResult`: denied with a structured error; no margins. -/
def NewDeniedResult (err : QuotaError) (policy : Option APIKeyPolicy)
    (usage : Option QuotaUsage) : CheckResult :=
  { Allowed := false
    Error := some err
    Usage := usage
    Policy := policy
    RemainingTokens := none
    RemainingCostUSD := none }

/-! ### The quota manager, from `internal/quota/manager.go` -/

/-- `Manager` state: the policy map, the usage ledger, and the pricing
catalog of its pricing manager. -/
structure Manager : Type where
  policies : List (String × APIKeyPolicy)
  usage : List (String × QuotaUsage)
  pricing : List (String × ModelPricing)
deriving DecidableEq, Repr

/-- `GetPolicy`: read-only map lookup, `none` meaning no restrictions. -/
def Manager.GetPolicy (m : Manager) (apiKey : String) : Option APIKeyPolicy :=
  lookupA m.policies apiKey

/-- `GetUsageReadOnly`: read-only ledger lookup, never creates a row. -/
def Manager.GetUsageReadOnly (m : Manager) (apiKey : String) : Option QuotaUsage :=
  lookupA m.usage apiKey

/-- A fresh zero ledger row with `CreatedAt = now`, as built by
`GetUsage` and `UpdateUsage` for a previously unseen key. -/
def freshUsage (apiKey : String) (now : Int) : QuotaUsage :=
  { APIKey := apiKey
    TotalTokens := 0
    TotalCostUSD := 0
    TotalRequests := 0
    LastUsedAt := 0
    CreatedAt := now }

/-- `GetUsage`: returns the existing row, or creates (and stores) a
fresh one for an unseen key. The returned manager is the updated state. -/
def Manager.GetUsage (m : Manager) (apiKey : String) (now : Int) :
    QuotaUsage × Manager :=
  match lookupA m.usage apiKey with
  | some u => (u, m)
  | none =>
    let u := freshUsage apiKey now
    (u, { m with usage := insertA m.usage apiKey u })

/-- State-threaded `GetPolicy`: a read under the read lock, so the
state component is returned untouched. -/
def Manager.GetPolicyS (m : Manager) (apiKey : String) :
    Option APIKeyPolicy × Manager :=
  (lookupA m.policies apiKey, m)

/-- State-threaded `GetUsageReadOnly`: a read under the read lock, so
the state component is returned untouched. -/
def Manager.GetUsageReadOnlyS (m : Manager) (apiKey : String) :
    Option QuotaUsage × Manager :=
  (lookupA m.usage apiKey, m)

/-- `CheckQuota` with its state threaded through the two reads it
performs (`GetPolicy`, then `GetUsageReadOnly`), mirroring the Go body:
no policy allows; then expiration, model restriction, token limit and
cost limit are checked in order, the two budget checks firing only when
a ledger row exists. -/
def Manager.CheckQuotaS (m : Manager) (apiKey model : String) (now : Int) :
    CheckResult × Manager :=
  let pr := m.GetPolicyS apiKey
  let ur := pr.2.GetUsageReadOnlyS apiKey
  let result : CheckResult :=
    match pr.1 with
    | none => NewAllowedResult none ur.1
    | some policy =>
      if policy.IsExpired now then
        NewDeniedResult (.expired policy.ParsedExpiresAt) (some policy) ur.1
      else if !policy.IsModelAllowed model then
        NewDeniedResult (.modelNotAllowed model policy.AllowedModels)
          (some policy) ur.1
      else
        match ur.1 with
        | some usage =>
          if policy.HasTokenLimit && decide (usage.TotalTokens ≥ policy.MaxTokens) then
            NewDeniedResult (.tokenLimitExceeded usage.TotalTokens policy.MaxTokens)
              (some policy) (some usage)
          else if policy.HasCostLimit && decide (usage.TotalCostUSD ≥ policy.MaxCostUSD) then
            NewDeniedResult (.costLimitExceeded usage.TotalCostUSD policy.MaxCostUSD)
              (some policy) (some usage)
          else NewAllowedResult (some policy) (some usage)
        | none => NewAllowedResult (some policy) none
  (result, ur.2)

/-- `CheckQuota`: the verdict component of `CheckQuotaS`. -/
def Manager.CheckQuota (m : Manager) (apiKey model : String) (now : Int) :
    CheckResult :=
  (m.CheckQuotaS apiKey model now).1

/-- `UpdateUsage`: fetches or creates the ledger row, then adds
`inputTokens + outputTokens` to `TotalTokens`, the calculated cost to
`TotalCostUSD`, one to `TotalRequests`, and stamps `LastUsedAt`. -/
def Manager.UpdateUsage (m : Manager) (apiKey model : String)
    (inputTokens outputTokens cachedTokens : Int) (now : Int) : Manager :=
  let usage :=
    match lookupA m.usage apiKey with
    | some u => u
    | none => freshUsage apiKey now
  let totalTokens := inputTokens + outputTokens
  let cost := CalculateCost m.pricing model inputTokens outputTokens cachedTokens
  { m with
    usage := insertA m.usage apiKey
      { usage with
        TotalTokens := usage.TotalTokens + totalTokens
        TotalCostUSD := usage.TotalCostUSD + cost
        TotalRequests := usage.TotalRequests + 1
        LastUsedAt := now } }

/-- `SetUsage`: overwrites the ledger row for a key (used when loading
a persisted snapshot). -/
def Manager.SetUsage (m : Manager) (apiKey : String) (u : QuotaUsage) : Manager :=
  { m with usage := insertA m.usage apiKey u }

/-- `ResetUsage`: deletes one ledger row. -/
def Manager.ResetUsage (m : Manager) (apiKey : String) : Manager :=
  { m with usage := eraseA m.usage apiKey }

/-- `ResetAllUsage`: clears the whole ledger. -/
def Manager.ResetAllUsage (m : Manager) : Manager :=
  { m with usage := [] }

/-- `LoadPolicies`: a nil config is ignored; otherwise the policy map is
cleared and rebuilt from the config entries. -/
def Manager.LoadPolicies (m : Manager)
    (cfg : Option (List (String × APIKeyPolicy))) : Manager :=
  match cfg with
  | none => m
  | some entries =>
    { m with
      policies := entries.foldl (fun acc kv => insertA acc kv.1 kv.2) [] }

/-! ### The manager operations, enumerated for frame reasoning -/

/-- The operations of the quota `Manager` interface. `allUsage`,
`allPolicies` and `getQuotaStatus` return deep copies built under the
read lock, so their effect on the manager state is the identity. -/
inductive ManagerOp : Type
  | loadPolicies (cfg : Option (List (String × APIKeyPolicy))) : ManagerOp
  | getPolicy (apiKey : String) : ManagerOp
  | getUsage (apiKey : String) (now : Int) : ManagerOp
  | getUsageReadOnly (apiKey : String) : ManagerOp
  | checkQuota (apiKey model : String) (now : Int) : ManagerOp
  | updateUsage (apiKey model : String)
      (inputTokens outputTokens cachedTokens now : Int) : ManagerOp
  | setUsage (apiKey : String) (u : QuotaUsage) : ManagerOp
  | allUsage : ManagerOp
  | allPolicies : ManagerOp
  | resetUsage (apiKey : String) : ManagerOp
  | resetAllUsage : ManagerOp
  | getQuotaStatus (apiKey : String) : ManagerOp
deriving DecidableEq

/-- State effect of each manager operation. -/
def ManagerOp.apply : ManagerOp → Manager → Manager
  | .loadPolicies cfg, m => m.LoadPolicies cfg
  | .getPolicy _, m => m
  | .getUsage key now, m => (m.GetUsage key now).2
  | .getUsageReadOnly _, m => m
  | .checkQuota key model now, m => (m.CheckQuotaS key model now).2
  | .updateUsage key model i o c now, m => m.UpdateUsage key model i o c now
  | .setUsage key u, m => m.SetUsage key u
  | .allUsage, m => m
  | .allPolicies, m => m
  | .resetUsage key, m => m.ResetUsage key
  | .resetAllUsage, m => m.ResetAllUsage
  | .getQuotaStatus _, m => m

/-- Whether an operation is one of the two administrative resets. -/
def ManagerOp.isReset : ManagerOp → Bool
  | .resetUsage _ => true
  | .resetAllUsage => true
  | _ => false

/-- Whether an operation is a usage update. -/
def ManagerOp.isUpdateUsage : ManagerOp → Bool
  | .updateUsage _ _ _ _ _ _ => true
  | _ => false

/-- Whether an operation is a `SetUsage` (snapshot load) write. -/
def ManagerOp.isSetUsage : ManagerOp → Bool
  | .setUsage _ _ => true
  | _ => false

/-- Whether an operation is a `GetUsage` (get-or-create) call. -/
def ManagerOp.isGetUsage : ManagerOp → Bool
  | .getUsage _ _ => true
  | _ => false

/-- Non-negativity of the token arguments of an operation (trivially
true for operations that carry no token counts). -/
def ManagerOp.tokensNonneg : ManagerOp → Prop
  | .updateUsage _ _ i o c _ => 0 ≤ i ∧ 0 ≤ o ∧ 0 ≤ c
  | _ => True

/-- All catalog prices are non-negative. -/
def pricingNonneg (pricing : List (String × ModelPricing)) : Prop :=
  ∀ entry ∈ pricing,
    0 ≤ entry.2.InputPricePerMillion ∧
    0 ≤ entry.2.OutputPricePerMillion ∧
    0 ≤ entry.2.CachedInputPricePerMillion

/-- Ledger token total for a key, an absent row counting as zero. -/
def usedTokens (m : Manager) (apiKey : String) : Int :=
  ((lookupA m.usage apiKey).map QuotaUsage.TotalTokens).getD 0

/-- Ledger cost total for a key, an absent row counting as zero. -/
def usedCost (m : Manager) (apiKey : String) : Rat :=
  ((lookupA m.usage apiKey).map QuotaUsage.TotalCostUSD).getD 0

/-- Ledger request count for a key, an absent row counting as zero. -/
def usedRequests (m : Manager) (apiKey : String) : Int :=
  ((lookupA m.usage apiKey).map QuotaUsage.TotalRequests).getD 0

/-! ### Autosave lifecycle, from the quota persistence file -/

/-- Observable autosave state of the quota persistence controller: the
`autoSaveRunning` flag, and a generation counter that advances each
time a fresh `stopAutoSave` channel is allocated. -/
structure AutoSaveState : Type where
  running : Bool
  chanGen : Nat
deriving DecidableEq, Repr

/-- `StartAutoSave`: a call while already running returns before
touching any state; otherwise it allocates a fresh stop channel, sets
the running flag and spawns the ticker goroutine. -/
def StartAutoSave (s : AutoSaveState) : AutoSaveState :=
  if s.running then s
  else { running := true, chanGen := s.chanGen + 1 }

/-- `StopAutoSave`: when not running it returns immediately (no final
save, no error); otherwise it closes the stop channel, clears the flag
and performs one final save. The boolean reports whether the final
save was attempted. -/
def StopAutoSave (s : AutoSaveState) : AutoSaveState × Bool :=
  if !s.running then (s, false)
  else ({ s with running := false }, true)

/-! ### Theorems -/

/-- C9: the autosave lifecycle controls are idempotent: calling
`StartAutoSave` twice in a row leaves the autosave state exactly as one
call does, and calling `StopAutoSave` when autosave was never started
(running flag clear) is a no-op that attempts no final save and
produces no error. -/
theorem autosave_lifecycle_idempotent_c9 :
    ∀ (s : AutoSaveState) (g : Nat),
      StartAutoSave (StartAutoSave s) = StartAutoSave s ∧
      StopAutoSave { running := false, chanGen := g } =
        ({ running := false, chanGen := g }, false) := by
  intro s g
  constructor
  · by_cases h : s.running <;> simp [StartAutoSave, h]
  · simp [StopAutoSave]

/-- C10: CheckQuota is a pure read at the manager interface: the
manager state after the state-threaded check equals the state before,
so the policy map and the usage ledger are untouched and in particular
no ledger row is created for an unseen key. -/
theorem checkQuota_pure_read_c10 :
    ∀ (m : Manager) (apiKey model : String) (now : Int),
      (m.CheckQuotaS apiKey model now).2 = m ∧
      ManagerOp.apply (.checkQuota apiKey model now) m = m := by
  intro m apiKey model now
  exact ⟨rfl, rfl⟩

/-- C5: for every model with a catalog entry, CalculateCost equals
input times the input price plus cached tokens times the effective
cached price (the cached price, falling back to the input price when
it is zero) plus output times the output price, all divided by one
million; for every model without a catalog entry the cost is exactly
zero. -/
theorem calculateCost_formula_c5 :
    ∀ (pricing : List (String × ModelPricing)) (model : String)
      (inputTokens outputTokens cachedTokens : Int),
      (∀ p, GetPricing pricing model = some p →
        CalculateCost pricing model inputTokens outputTokens cachedTokens =
          ((inputTokens : Rat) * p.InputPricePerMillion +
           (cachedTokens : Rat) *
             (if p.CachedInputPricePerMillion = 0 then p.InputPricePerMillion
              else p.CachedInputPricePerMillion) +
           (outputTokens : Rat) * p.OutputPricePerMillion) / 1000000) ∧
      (GetPricing pricing model = none →
        CalculateCost pricing model inputTokens outputTokens cachedTokens = 0) := by
  intro pricing model i o c
  constructor
  · intro p hp
    simp only [CalculateCost, hp]
    ring
  · intro hp
    simp [CalculateCost, hp]

/-- Example one-entry catalog used to witness C5. -/
def pricingEx : List (String × ModelPricing) :=
  [("gpt-4o", { InputPricePerMillion := 5/2, OutputPricePerMillion := 10,
                CachedInputPricePerMillion := 0 })]

/-- Example catalog entry used to witness C5. -/
def pEx : ModelPricing :=
  { InputPricePerMillion := 5/2, OutputPricePerMillion := 10,
    CachedInputPricePerMillion := 0 }

theorem calculateCost_formula_c5_witness :
    CalculateCost pricingEx "gpt-4o" 1000 500 0 =
      (((1000 : Int) : Rat) * pEx.InputPricePerMillion +
       ((0 : Int) : Rat) *
         (if pEx.CachedInputPricePerMillion = 0 then pEx.InputPricePerMillion
          else pEx.CachedInputPricePerMillion) +
       ((500 : Int) : Rat) * pEx.OutputPricePerMillion) / 1000000 :=
  (calculateCost_formula_c5 pricingEx "gpt-4o" 1000 500 0).1 pEx rfl

/-- C4: with `now` an instant of calendar day `d`, a date-only expiry
equal to day `d` (today) is not expired, a date-only expiry on any
strictly earlier day (in particular one year in the past) is expired,
a date-only expiry on any day at or after `d` (in particular one year
in the future) is not expired, and an absent expiry never expires. -/
theorem expiration_end_of_day_c4 :
    ∀ (p : APIKeyPolicy) (d now : Int),
      d * 86400 ≤ now → now < (d + 1) * 86400 →
      (p.ExpiresAt = .dateOnly d → p.IsExpired now = false) ∧
      (∀ dp, p.ExpiresAt = .dateOnly dp → dp < d → p.IsExpired now = true) ∧
      (∀ df, p.ExpiresAt = .dateOnly df → d ≤ df → p.IsExpired now = false) ∧
      (p.ExpiresAt = .absent → p.IsExpired now = false) := by
  intro p d now h1 h2
  refine ⟨?_, ?_, ?_, ?_⟩
  · intro he
    simp [APIKeyPolicy.IsExpired, APIKeyPolicy.HasExpiration, he,
      APIKeyPolicy.ParsedExpiresAt]
    omega
  · intro dp he hdp
    simp [APIKeyPolicy.IsExpired, APIKeyPolicy.HasExpiration, he,
      APIKeyPolicy.ParsedExpiresAt]
    omega
  · intro df he hdf
    simp [APIKeyPolicy.IsExpired, APIKeyPolicy.HasExpiration, he,
      APIKeyPolicy.ParsedExpiresAt]
    omega
  · intro he
    simp [APIKeyPolicy.IsExpired, APIKeyPolicy.HasExpiration, he]

/-- Example policy with a date-only expiry one year before day 20000,
used to witness C4. -/
def policyPastEx : APIKeyPolicy :=
  { Name := "", AllowedModels := [], MaxTokens := 0, MaxCostUSD := 0,
    ExpiresAt := .dateOnly 19635 }

theorem expiration_end_of_day_c4_witness :
    policyPastEx.IsExpired (20000 * 86400 + 3600) = true :=
  (expiration_end_of_day_c4 policyPastEx 20000 (20000 * 86400 + 3600)
    (by norm_num) (by norm_num)).2.1 19635 rfl (by norm_num)

/-- C6: UpdateUsage adds exactly `inputTokens + outputTokens` to the
key's token total (cached tokens are not added to the token total) and
one to its request count; in particular two sequential updates of
(1000, 500, 0) then (2000, 1000, 0) tokens on a fresh key leave
`TotalTokens = 4500` and `TotalRequests = 2`. -/
theorem updateUsage_accumulation_c6 :
    (∀ (m : Manager) (apiKey model : String) (i o c now : Int),
      usedTokens (m.UpdateUsage apiKey model i o c now) apiKey =
        usedTokens m apiKey + i + o ∧
      usedRequests (m.UpdateUsage apiKey model i o c now) apiKey =
        usedRequests m apiKey + 1) ∧
    usedTokens (((Manager.mk [] [] []).UpdateUsage "key" "m" 1000 500 0 1).UpdateUsage
      "key" "m" 2000 1000 0 2) "key" = 4500 ∧
    usedRequests (((Manager.mk [] [] []).UpdateUsage "key" "m" 1000 500 0 1).UpdateUsage
      "key" "m" 2000 1000 0 2) "key" = 2 := by
  refine ⟨?_, by decide, by decide⟩
  intro m apiKey model i o c now
  constructor
  · simp only [usedTokens, Manager.UpdateUsage, lookupA_insertA_self]
    cases h : lookupA m.usage apiKey with
    | none => simp [h, freshUsage]
    | some u =>
      simp [h]
      ring
  · simp only [usedRequests, Manager.UpdateUsage, lookupA_insertA_self]
    cases h : lookupA m.usage apiKey <;> simp [h, freshUsage]

/-- C1: CheckQuota evaluates its checks in the fixed, short-circuiting
order of the code: a key with no policy is allowed; otherwise the first
failing check among expiration, model allow-list (vacuously passing
when the allowed-models list is empty), token limit and cost limit
(each budget check firing only against an existing ledger row, an
absent row counting as zero usage) produces the denial with the
corresponding error kind; only when no check fails is the request
allowed. -/
theorem checkQuota_order_c1 :
    ∀ (m : Manager) (apiKey model : String) (now : Int),
      (m.GetPolicy apiKey = none →
        m.CheckQuota apiKey model now =
          NewAllowedResult none (m.GetUsageReadOnly apiKey)) ∧
      (∀ p, m.GetPolicy apiKey = some p → p.IsExpired now = true →
        m.CheckQuota apiKey model now =
          NewDeniedResult (.expired p.ParsedExpiresAt) (some p)
            (m.GetUsageReadOnly apiKey)) ∧
      (∀ p, m.GetPolicy apiKey = some p → p.IsExpired now = false →
        p.IsModelAllowed model = false →
        m.CheckQuota apiKey model now =
          NewDeniedResult (.modelNotAllowed model p.AllowedModels) (some p)
            (m.GetUsageReadOnly apiKey)) ∧
      (∀ p u, m.GetPolicy apiKey = some p → p.IsExpired now = false →
        p.IsModelAllowed model = true →
        m.GetUsageReadOnly apiKey = some u →
        p.HasTokenLimit = true → u.TotalTokens ≥ p.MaxTokens →
        m.CheckQuota apiKey model now =
          NewDeniedResult (.tokenLimitExceeded u.TotalTokens p.MaxTokens)
            (some p) (some u)) ∧
      (∀ p u, m.GetPolicy apiKey = some p → p.IsExpired now = false →
        p.IsModelAllowed model = true →
        m.GetUsageReadOnly apiKey = some u →
        (p.HasTokenLimit && decide (u.TotalTokens ≥ p.MaxTokens)) = false →
        p.HasCostLimit = true → u.TotalCostUSD ≥ p.MaxCostUSD →
        m.CheckQuota apiKey model now =
          NewDeniedResult (.costLimitExceeded u.TotalCostUSD p.MaxCostUSD)
            (some p) (some u)) ∧
      (∀ p, m.GetPolicy apiKey = some p → p.IsExpired now = false →
        p.IsModelAllowed model = true →
        (∀ u, m.GetUsageReadOnly apiKey = some u →
          (p.HasTokenLimit && decide (u.TotalTokens ≥ p.MaxTokens)) = false ∧
          (p.HasCostLimit && decide (u.TotalCostUSD ≥ p.MaxCostUSD)) = false) →
        m.CheckQuota apiKey model now =
          NewAllowedResult (some p) (m.GetUsageReadOnly apiKey)) := by
  intro m apiKey model now
  simp only [Manager.CheckQuota, Manager.CheckQuotaS, Manager.GetPolicyS,
    Manager.GetUsageReadOnlyS, Manager.GetPolicy, Manager.GetUsageReadOnly]
  refine ⟨?_, ?_, ?_, ?_, ?_, ?_⟩
  · intro hp
    simp [hp]
  · intro p hp hexp
    simp [hp, hexp]
  · intro p hp hexp hmodel
    simp [hp, hexp, hmodel]
  · intro p u hp hexp hmodel hu htl hge
    simp [hp, hexp, hmodel, hu, htl, hge]
  · intro p u hp hexp hmodel hu htok hcl hge
    simp [hp, hexp, hmodel, hu, htok, hcl, hge]
  · intro p hp hexp hmodel hchecks
    cases hu : lookupA m.usage apiKey with
    | none => simp [hp, hexp, hmodel, hu]
    | some u =>
      obtain ⟨h1, h2⟩ := hchecks u hu
      simp [hp, hexp, hmodel, hu, h1, h2]

theorem checkQuota_order_c1_witness :
    (Manager.mk [] [] []).CheckQuota "k" "gpt-4o" 0 =
      NewAllowedResult none ((Manager.mk [] [] []).GetUsageReadOnly "k") :=
  (checkQuota_order_c1 (Manager.mk [] [] []) "k" "gpt-4o" 0).1 rfl

/-- Claim C2 as stated: whenever a key's policy caps tokens at
`L > 0` and the key's ledger row holds at least `L` tokens, CheckQuota
for that key is denied with kind `tokenLimitExceeded`, regardless of
the model argument. -/
def claimC2Stated : Prop :=
  ∀ (m : Manager) (apiKey : String) (p : APIKeyPolicy) (u : QuotaUsage)
    (model : String) (now : Int),
    m.GetPolicy apiKey = some p → p.MaxTokens > 0 →
    m.GetUsageReadOnly apiKey = some u → u.TotalTokens ≥ p.MaxTokens →
    (m.CheckQuota apiKey model now).Allowed = false ∧
    (m.CheckQuota apiKey model now).errKind = some .tokenLimitExceeded

/-- Policy capping tokens at 10 and restricting models to `model-a`. -/
def policyC2 : APIKeyPolicy :=
  { Name := "", AllowedModels := ["model-a"], MaxTokens := 10, MaxCostUSD := 0,
    ExpiresAt := .absent }

/-- Ledger row sitting exactly at the 10-token cap. -/
def usageC2 : QuotaUsage :=
  { APIKey := "key1", TotalTokens := 10, TotalCostUSD := 0, TotalRequests := 1,
    LastUsedAt := 0, CreatedAt := 0 }

/-- Manager whose key is both over its token cap and model-restricted. -/
def mgrC2 : Manager :=
  { policies := [("key1", policyC2)], usage := [("key1", usageC2)], pricing := [] }

/-- C2 fails as stated: with the token cap reached but a model outside
the allow-list requested, the model check fires first and the denial
kind is `modelNotAllowed`, not `tokenLimitExceeded`. -/
theorem tokenLimit_denial_c2_counterexample : ¬claimC2Stated := by
  intro h
  have h2 := (h mgrC2 "key1" policyC2 usageC2 "model-b" 0 rfl (by decide)
    rfl (by decide)).2
  have h3 : (mgrC2.CheckQuota "key1" "model-b" 0).errKind =
      some .modelNotAllowed := by decide
  rw [h3] at h2
  simp at h2

/-- C2 amended: for a non-expired policy with `MaxTokens = L > 0`,
once the ledger row holds at least `L` tokens, CheckQuota for that key
with any model the policy allows (hence with every model when the
allow-list is empty) is denied with kind `tokenLimitExceeded`, until
the ledger row is reset. -/
theorem tokenLimit_denial_c2 :
    ∀ (m : Manager) (apiKey : String) (p : APIKeyPolicy) (u : QuotaUsage)
      (model : String) (now : Int),
      m.GetPolicy apiKey = some p → p.MaxTokens > 0 →
      p.IsExpired now = false → p.IsModelAllowed model = true →
      m.GetUsageReadOnly apiKey = some u → u.TotalTokens ≥ p.MaxTokens →
      (m.CheckQuota apiKey model now).Allowed = false ∧
      (m.CheckQuota apiKey model now).errKind = some .tokenLimitExceeded := by
  intro m apiKey p u model now hp hmax hexp hmodel hu hge
  have htl : p.HasTokenLimit = true := by
    simp [APIKeyPolicy.HasTokenLimit, hmax]
  simp only [Manager.GetPolicy] at hp
  simp only [Manager.GetUsageReadOnly] at hu
  constructor <;>
    simp [Manager.CheckQuota, Manager.CheckQuotaS, Manager.GetPolicyS,
      Manager.GetUsageReadOnlyS, hp, hexp, hmodel, hu, htl, hge,
      NewDeniedResult, CheckResult.errKind, QuotaError.errType]

theorem tokenLimit_denial_c2_witness :
    (mgrC2.CheckQuota "key1" "model-a" 0).Allowed = false ∧
    (mgrC2.CheckQuota "key1" "model-a" 0).errKind = some .tokenLimitExceeded :=
  tokenLimit_denial_c2 mgrC2 "key1" policyC2 usageC2 "model-a" 0 rfl (by decide)
    (by decide) (by decide) rfl (by decide)

/-- Claim C3 as stated: every allowed CheckQuota under a policy carries
the remaining margins exactly when the corresponding limit is set, an
absent ledger row counting as zero usage (so `remaining = limit`). -/
def claimC3Stated : Prop :=
  ∀ (m : Manager) (apiKey model : String) (now : Int) (p : APIKeyPolicy),
    m.GetPolicy apiKey = some p →
    (m.CheckQuota apiKey model now).Allowed = true →
    (m.CheckQuota apiKey model now).RemainingTokens =
      (if p.HasTokenLimit then some (p.MaxTokens - usedTokens m apiKey)
       else none) ∧
    (m.CheckQuota apiKey model now).RemainingCostUSD =
      (if p.HasCostLimit then some (p.MaxCostUSD - usedCost m apiKey)
       else none)

/-- Policy capping tokens at 100 with no other restrictions. -/
def policyC3 : APIKeyPolicy :=
  { Name := "", AllowedModels := [], MaxTokens := 100, MaxCostUSD := 0,
    ExpiresAt := .absent }

/-- Manager with a token-capped key and an empty ledger. -/
def mgrC3 : Manager :=
  { policies := [("key1", policyC3)], usage := [], pricing := [] }

/-- C3 fails as stated: a token-capped key with no ledger row is
allowed with `RemainingTokens` absent, whereas the claim requires
`some (limit - 0)`. -/
theorem margins_c3_counterexample : ¬claimC3Stated := by
  intro h
  have h2 := (h mgrC3 "key1" "gpt-4o" 0 policyC3 rfl (by decide)).1
  exact absurd h2 (by decide)

/-- C3 amended: for every allowed CheckQuota result under a policy,
each remaining-margin field is present exactly when the corresponding
limit is set AND a ledger row exists for the key, and then carries
`limit - used`; when the key has no ledger row both margin fields are
absent even if the policy caps tokens or cost. -/
theorem margins_c3 :
    ∀ (m : Manager) (apiKey model : String) (now : Int) (p : APIKeyPolicy),
      m.GetPolicy apiKey = some p →
      (m.CheckQuota apiKey model now).Allowed = true →
      (∀ u, m.GetUsageReadOnly apiKey = some u →
        (m.CheckQuota apiKey model now).RemainingTokens =
          (if p.HasTokenLimit then some (p.MaxTokens - u.TotalTokens)
           else none) ∧
        (m.CheckQuota apiKey model now).RemainingCostUSD =
          (if p.HasCostLimit then some (p.MaxCostUSD - u.TotalCostUSD)
           else none)) ∧
      (m.GetUsageReadOnly apiKey = none →
        (m.CheckQuota apiKey model now).RemainingTokens = none ∧
        (m.CheckQuota apiKey model now).RemainingCostUSD = none) := by
  intro m apiKey model now p hp hallow
  simp only [Manager.GetPolicy] at hp
  simp only [Manager.GetUsageReadOnly]
  simp only [Manager.CheckQuota, Manager.CheckQuotaS, Manager.GetPolicyS,
    Manager.GetUsageReadOnlyS, hp] at hallow ⊢
  by_cases hexp : p.IsExpired now
  · simp [hexp, NewDeniedResult] at hallow
  · by_cases hmodel : p.IsModelAllowed model
    · cases hu : lookupA m.usage apiKey with
      | none =>
        constructor
        · intro u hu2
          simp at hu2
        · intro _
          simp [hexp, hmodel, hu, NewAllowedResult]
      | some u0 =>
        constructor
        · intro u hu2
          injection hu2 with he
          subst he
          by_cases ht : (p.HasTokenLimit && decide (u0.TotalTokens ≥ p.MaxTokens)) = true
          · simp [hexp, hmodel, hu, ht, NewDeniedResult] at hallow
          · by_cases hc :
              (p.HasCostLimit && decide (u0.TotalCostUSD ≥ p.MaxCostUSD)) = true
            · simp [hexp, hmodel, hu, ht, hc, NewDeniedResult] at hallow
            · simp [hexp, hmodel, hu, ht, hc, NewAllowedResult]
        · intro hnone
          simp at hnone
    · simp [hexp, hmodel, NewDeniedResult] at hallow

/-- Ledger row thirty tokens into the 100-token cap. -/
def usageC3 : QuotaUsage :=
  { APIKey := "key1", TotalTokens := 30, TotalCostUSD := 0, TotalRequests := 1,
    LastUsedAt := 0, CreatedAt := 0 }

/-- Manager with a token-capped key and a 30-token ledger row. -/
def mgrC3w : Manager :=
  { policies := [("key1", policyC3)], usage := [("key1", usageC3)], pricing := [] }

theorem margins_c3_witness :
    (mgrC3w.CheckQuota "key1" "gpt-4o" 0).RemainingTokens =
      (if policyC3.HasTokenLimit
       then some (policyC3.MaxTokens - usageC3.TotalTokens) else none) ∧
    (mgrC3w.CheckQuota "key1" "gpt-4o" 0).RemainingCostUSD =
      (if policyC3.HasCostLimit
       then some (policyC3.MaxCostUSD - usageC3.TotalCostUSD) else none) :=
  (margins_c3 mgrC3w "key1" "gpt-4o" 0 policyC3 rfl (by decide)).1 usageC3 rfl

/-- With non-negative catalog prices and token counts, a calculated
cost is non-negative. -/
theorem calculateCost_nonneg (pricing : List (String × ModelPricing))
    (model : String) (i o c : Int) (hpr : pricingNonneg pricing)
    (hi : 0 ≤ i) (ho : 0 ≤ o) (hc : 0 ≤ c) :
    0 ≤ CalculateCost pricing model i o c := by
  unfold CalculateCost
  cases hg : GetPricing pricing model with
  | none => simp
  | some p =>
    obtain ⟨h1, h2, h3⟩ := hpr _ (lookupA_mem hg)
    have hi' : (0 : Rat) ≤ (i : Rat) := by exact_mod_cast hi
    have ho' : (0 : Rat) ≤ (o : Rat) := by exact_mod_cast ho
    have hc' : (0 : Rat) ≤ (c : Rat) := by exact_mod_cast hc
    have heff : (0 : Rat) ≤
        (if p.CachedInputPricePerMillion = 0 then p.InputPricePerMillion
         else p.CachedInputPricePerMillion) := by
      split <;> assumption
    have t1 : (0 : Rat) ≤ (i : Rat) * p.InputPricePerMillion / 1000000 :=
      div_nonneg (mul_nonneg hi' h1) (by norm_num)
    have t2 : (0 : Rat) ≤ (c : Rat) *
        (if p.CachedInputPricePerMillion = 0 then p.InputPricePerMillion
         else p.CachedInputPricePerMillion) / 1000000 :=
      div_nonneg (mul_nonneg hc' heff) (by norm_num)
    have t3 : (0 : Rat) ≤ (o : Rat) * p.OutputPricePerMillion / 1000000 :=
      div_nonneg (mul_nonneg ho' h2) (by norm_num)
    simpa using add_nonneg (add_nonneg t1 t2) t3

/-- Claim C7 as stated: every manager operation other than the two
administrative resets leaves every ledger counter of every surviving
row at or above its prior value, for non-negative token arguments and
non-negative catalog prices. -/
def claimC7Stated : Prop :=
  ∀ (op : ManagerOp) (m : Manager) (apiKey : String) (u u' : QuotaUsage),
    op.isReset = false → op.tokensNonneg → pricingNonneg m.pricing →
    lookupA m.usage apiKey = some u →
    lookupA (op.apply m).usage apiKey = some u' →
    u.TotalTokens ≤ u'.TotalTokens ∧ u.TotalCostUSD ≤ u'.TotalCostUSD ∧
    u.TotalRequests ≤ u'.TotalRequests

/-- Ledger row with five tokens accounted. -/
def usageFive : QuotaUsage :=
  { APIKey := "key1", TotalTokens := 5, TotalCostUSD := 0, TotalRequests := 1,
    LastUsedAt := 0, CreatedAt := 0 }

/-- Manager holding the five-token row. -/
def mgrC7 : Manager :=
  { policies := [], usage := [("key1", usageFive)], pricing := [] }

/-- C7 fails as stated: `SetUsage`, which is not one of the two resets,
can overwrite a row with a fresh zero row, lowering `TotalTokens` from
5 to 0. -/
theorem monotone_counters_c7_counterexample : ¬claimC7Stated := by
  intro h
  have h2 := h (.setUsage "key1" (freshUsage "key1" 0)) mgrC7 "key1" usageFive
    (freshUsage "key1" 0) rfl trivial (by intro e he; cases he) rfl rfl
  exact absurd h2.1 (by decide)

/-- C7 amended: ledger counters are monotonically non-decreasing under
every manager operation except the two administrative resets and
`SetUsage` (the snapshot-load write, which overwrites a row with
arbitrary values): for non-negative token arguments and non-negative
catalog prices, any other operation leaves every counter of every
surviving row at or above its prior value. -/
theorem monotone_counters_c7 :
    ∀ (op : ManagerOp) (m : Manager) (apiKey : String) (u u' : QuotaUsage),
      op.isReset = false → op.isSetUsage = false →
      op.tokensNonneg → pricingNonneg m.pricing →
      lookupA m.usage apiKey = some u →
      lookupA (op.apply m).usage apiKey = some u' →
      u.TotalTokens ≤ u'.TotalTokens ∧ u.TotalCostUSD ≤ u'.TotalCostUSD ∧
      u.TotalRequests ≤ u'.TotalRequests := by
  intro op m apiKey u u' hreset hset htok hpr hu hu'
  cases op with
  | loadPolicies cfg =>
    have heq : (ManagerOp.apply (.loadPolicies cfg) m).usage = m.usage := by
      cases cfg <;> rfl
    rw [heq, hu] at hu'
    injection hu' with he
    subst he
    exact ⟨le_refl _, le_refl _, le_refl _⟩
  | getPolicy k =>
    rw [show ManagerOp.apply (.getPolicy k) m = m from rfl, hu] at hu'
    injection hu' with he
    subst he
    exact ⟨le_refl _, le_refl _, le_refl _⟩
  | getUsage k now =>
    simp only [ManagerOp.apply, Manager.GetUsage] at hu'
    cases hk : lookupA m.usage k with
    | some v =>
      rw [hk] at hu'
      simp only at hu'
      rw [hu] at hu'
      injection hu' with he
      subst he
      exact ⟨le_refl _, le_refl _, le_refl _⟩
    | none =>
      rw [hk] at hu'
      simp only at hu'
      by_cases he : apiKey = k
      · subst he
        rw [hu] at hk
        cases hk
      · rw [lookupA_insertA_ne _ _ _ _ he, hu] at hu'
        injection hu' with he2
        subst he2
        exact ⟨le_refl _, le_refl _, le_refl _⟩
  | getUsageReadOnly k =>
    rw [show ManagerOp.apply (.getUsageReadOnly k) m = m from rfl, hu] at hu'
    injection hu' with he
    subst he
    exact ⟨le_refl _, le_refl _, le_refl _⟩
  | checkQuota k mdl now =>
    rw [show ManagerOp.apply (.checkQuota k mdl now) m = m from rfl, hu] at hu'
    injection hu' with he
    subst he
    exact ⟨le_refl _, le_refl _, le_refl _⟩
  | updateUsage k mdl i o c now =>
    obtain ⟨hi, ho, hc⟩ := htok
    simp only [ManagerOp.apply, Manager.UpdateUsage] at hu'
    by_cases he : apiKey = k
    · subst he
      rw [lookupA_insertA_self] at hu'
      rw [hu] at hu'
      injection hu' with he2
      subst he2
      have hcost := calculateCost_nonneg m.pricing mdl i o c hpr hi ho hc
      refine ⟨by simp; omega, by simpa using hcost, by simp⟩
    · rw [lookupA_insertA_ne _ _ _ _ he, hu] at hu'
      injection hu' with he2
      subst he2
      exact ⟨le_refl _, le_refl _, le_refl _⟩
  | setUsage k v =>
    simp [ManagerOp.isSetUsage] at hset
  | allUsage =>
    rw [show ManagerOp.apply .allUsage m = m from rfl, hu] at hu'
    injection hu' with he
    subst he
    exact ⟨le_refl _, le_refl _, le_refl _⟩
  | allPolicies =>
    rw [show ManagerOp.apply .allPolicies m = m from rfl, hu] at hu'
    injection hu' with he
    subst he
    exact ⟨le_refl _, le_refl _, le_refl _⟩
  | resetUsage k =>
    simp [ManagerOp.isReset] at hreset
  | resetAllUsage =>
    simp [ManagerOp.isReset] at hreset
  | getQuotaStatus k =>
    rw [show ManagerOp.apply (.getQuotaStatus k) m = m from rfl, hu] at hu'
    injection hu' with he
    subst he
    exact ⟨le_refl _, le_refl _, le_refl _⟩

/-- The five-token row after an update with 100 input and 50 output
tokens at instant 7 (no pricing, so zero cost). -/
def usageFiveAfter : QuotaUsage :=
  { APIKey := "key1", TotalTokens := 155, TotalCostUSD := 0, TotalRequests := 2,
    LastUsedAt := 7, CreatedAt := 0 }

theorem monotone_counters_c7_witness :
    usageFive.TotalTokens ≤ usageFiveAfter.TotalTokens ∧
    usageFive.TotalCostUSD ≤ usageFiveAfter.TotalCostUSD ∧
    usageFive.TotalRequests ≤ usageFiveAfter.TotalRequests :=
  monotone_counters_c7 (.updateUsage "key1" "gpt-4o" 100 50 0 7) mgrC7 "key1"
    usageFive usageFiveAfter rfl rfl
    (by norm_num [ManagerOp.tokensNonneg])
    (by simp [pricingNonneg, mgrC7]) rfl
    (by
      simp [ManagerOp.apply, Manager.UpdateUsage, mgrC7, usageFive,
        usageFiveAfter, lookupA, insertA, eraseA, CalculateCost, GetPricing,
        freshUsage])

/-- Claim C8 as stated: a ledger row for a previously unseen key is
added only by `UpdateUsage` or `SetUsage`, and a row is removed only
by `ResetUsage` / `ResetAllUsage`. -/
def claimC8Stated : Prop :=
  ∀ (op : ManagerOp) (m : Manager) (apiKey : String),
    (lookupA m.usage apiKey = none →
      (lookupA (op.apply m).usage apiKey).isSome = true →
      (op.isUpdateUsage || op.isSetUsage) = true) ∧
    ((lookupA m.usage apiKey).isSome = true →
      lookupA (op.apply m).usage apiKey = none →
      op.isReset = true)

/-- C8 fails as stated: `GetUsage`, which is neither `UpdateUsage` nor
`SetUsage`, creates a ledger row for a previously unseen key. -/
theorem row_lifecycle_c8_counterexample : ¬claimC8Stated := by
  intro h
  have h2 := (h (.getUsage "key1" 0) (Manager.mk [] [] []) "key1").1 rfl (by decide)
  exact absurd h2 (by decide)

/-- C8 amended: a ledger row for a previously unseen key is created
only by `UpdateUsage`, `SetUsage` or `GetUsage` (the get-or-create
read), and a row is removed only by the explicit administrative resets
`ResetUsage` / `ResetAllUsage`. -/
theorem row_lifecycle_c8 :
    ∀ (op : ManagerOp) (m : Manager) (apiKey : String),
      (lookupA m.usage apiKey = none →
        (lookupA (op.apply m).usage apiKey).isSome = true →
        (op.isUpdateUsage || op.isSetUsage || op.isGetUsage) = true) ∧
      ((lookupA m.usage apiKey).isSome = true →
        lookupA (op.apply m).usage apiKey = none →
        op.isReset = true) := by
  intro op m apiKey
  constructor
  · intro hnone hsome
    cases op with
    | loadPolicies cfg =>
      have heq : (ManagerOp.apply (.loadPolicies cfg) m).usage = m.usage := by
        cases cfg <;> rfl
      rw [heq, hnone] at hsome
      cases hsome
    | getPolicy k =>
      rw [show ManagerOp.apply (.getPolicy k) m = m from rfl, hnone] at hsome
      cases hsome
    | getUsage k now => rfl
    | getUsageReadOnly k =>
      rw [show ManagerOp.apply (.getUsageReadOnly k) m = m from rfl, hnone] at hsome
      cases hsome
    | checkQuota k mdl now =>
      rw [show ManagerOp.apply (.checkQuota k mdl now) m = m from rfl,
        hnone] at hsome
      cases hsome
    | updateUsage k mdl i o c now => rfl
    | setUsage k v => rfl
    | allUsage =>
      rw [show ManagerOp.apply .allUsage m = m from rfl, hnone] at hsome
      cases hsome
    | allPolicies =>
      rw [show ManagerOp.apply .allPolicies m = m from rfl, hnone] at hsome
      cases hsome
    | resetUsage k =>
      simp only [ManagerOp.apply, Manager.ResetUsage] at hsome
      by_cases he : apiKey = k
      · subst he
        rw [lookupA_eraseA_self] at hsome
        cases hsome
      · rw [lookupA_eraseA_ne _ _ _ he, hnone] at hsome
        cases hsome
    | resetAllUsage =>
      simp only [ManagerOp.apply, Manager.ResetAllUsage] at hsome
      cases hsome
    | getQuotaStatus k =>
      rw [show ManagerOp.apply (.getQuotaStatus k) m = m from rfl, hnone] at hsome
      cases hsome
  · intro hsome hafter
    cases op with
    | loadPolicies cfg =>
      have heq : (ManagerOp.apply (.loadPolicies cfg) m).usage = m.usage := by
        cases cfg <;> rfl
      rw [heq] at hafter
      rw [hafter] at hsome
      cases hsome
    | getPolicy k =>
      rw [show ManagerOp.apply (.getPolicy k) m = m from rfl] at hafter
      rw [hafter] at hsome
      cases hsome
    | getUsage k now =>
      simp only [ManagerOp.apply, Manager.GetUsage] at hafter
      cases hk : lookupA m.usage k with
      | some v =>
        rw [hk] at hafter
        simp only at hafter
        rw [hafter] at hsome
        cases hsome
      | none =>
        rw [hk] at hafter
        simp only at hafter
        by_cases he : apiKey = k
        · subst he
          rw [lookupA_insertA_self] at hafter
          cases hafter
        · rw [lookupA_insertA_ne _ _ _ _ he] at hafter
          rw [hafter] at hsome
          cases hsome
    | getUsageReadOnly k =>
      rw [show ManagerOp.apply (.getUsageReadOnly k) m = m from rfl] at hafter
      rw [hafter] at hsome
      cases hsome
    | checkQuota k mdl now =>
      rw [show ManagerOp.apply (.checkQuota k mdl now) m = m from rfl] at hafter
      rw [hafter] at hsome
      cases hsome
    | updateUsage k mdl i o c now =>
      simp only [ManagerOp.apply, Manager.UpdateUsage] at hafter
      by_cases he : apiKey = k
      · subst he
        rw [lookupA_insertA_self] at hafter
        cases hafter
      · rw [lookupA_insertA_ne _ _ _ _ he] at hafter
        rw [hafter] at hsome
        cases hsome
    | setUsage k v =>
      simp only [ManagerOp.apply, Manager.SetUsage] at hafter
      by_cases he : apiKey = k
      · subst he
        rw [lookupA_insertA_self] at hafter
        cases hafter
      · rw [lookupA_insertA_ne _ _ _ _ he] at hafter
        rw [hafter] at hsome
        cases hsome
    | allUsage =>
      rw [show ManagerOp.apply .allUsage m = m from rfl] at hafter
      rw [hafter] at hsome
      cases hsome
    | allPolicies =>
      rw [show ManagerOp.apply .allPolicies m = m from rfl] at hafter
      rw [hafter] at hsome
      cases hsome
    | resetUsage k => rfl
    | resetAllUsage => rfl
    | getQuotaStatus k =>
      rw [show ManagerOp.apply (.getQuotaStatus k) m = m from rfl] at hafter
      rw [hafter] at hsome
      cases hsome

theorem row_lifecycle_c8_witness :
    ((ManagerOp.setUsage "key2" (freshUsage "key2" 3)).isUpdateUsage ||
     (ManagerOp.setUsage "key2" (freshUsage "key2" 3)).isSetUsage ||
     (ManagerOp.setUsage "key2" (freshUsage "key2" 3)).isGetUsage) = true :=
  (row_lifecycle_c8 (.setUsage "key2" (freshUsage "key2" 3))
    (Manager.mk [] [] []) "key2").1 rfl (by decide)

end CLIProxy
